import Mathlib

/-!
Verification of the freemocap Blender-adapter core: the ground-frame
estimator of src/skelly_blender/core/put_skeleton_on_ground/put_skeleton_on_ground.py
and the skeleton structural model of
src/freemocap_blender_addon/models/skeleton/keypoint_rigidbody_linkage_chain_abc.py.

Numeric code is embedded over the exact reals: a numpy (3,) float vector
becomes a `Vec3` of real coordinates, and NaN-carrying trajectory data
becomes points with `Option` real coordinates (`none` standing for NaN,
which every arithmetic operation propagates, as IEEE/numpy arithmetic does).
-/

/-- A 3D vector of real coordinates, the embedding of a numpy array of
shape (3,). -/
@[ext]
structure Vec3 where
  x : ℝ
  y : ℝ
  z : ℝ

namespace Vec3

instance : Zero Vec3 :=
  ⟨⟨0, 0, 0⟩⟩

instance : Add Vec3 :=
  ⟨fun a b => ⟨a.x + b.x, a.y + b.y, a.z + b.z⟩⟩

instance : Sub Vec3 :=
  ⟨fun a b => ⟨a.x - b.x, a.y - b.y, a.z - b.z⟩⟩

instance : SMul ℝ Vec3 :=
  ⟨fun s v => ⟨s * v.x, s * v.y, s * v.z⟩⟩

@[simp] theorem zero_x : (0 : Vec3).x = 0 := rfl

@[simp] theorem zero_y : (0 : Vec3).y = 0 := rfl

@[simp] theorem zero_z : (0 : Vec3).z = 0 := rfl

@[simp] theorem add_x (a b : Vec3) : (a + b).x = a.x + b.x := rfl

@[simp] theorem add_y (a b : Vec3) : (a + b).y = a.y + b.y := rfl

@[simp] theorem add_z (a b : Vec3) : (a + b).z = a.z + b.z := rfl

@[simp] theorem sub_x (a b : Vec3) : (a - b).x = a.x - b.x := rfl

@[simp] theorem sub_y (a b : Vec3) : (a - b).y = a.y - b.y := rfl

@[simp] theorem sub_z (a b : Vec3) : (a - b).z = a.z - b.z := rfl

@[simp] theorem smul_x (s : ℝ) (v : Vec3) : (s • v).x = s * v.x := rfl

@[simp] theorem smul_y (s : ℝ) (v : Vec3) : (s • v).y = s * v.y := rfl

@[simp] theorem smul_z (s : ℝ) (v : Vec3) : (s • v).z = s * v.z := rfl

/-- np.dot of two 3-vectors. -/
def dot (a b : Vec3) : ℝ :=
  a.x * b.x + a.y * b.y + a.z * b.z

/-- np.cross of two 3-vectors. -/
def cross (a b : Vec3) : Vec3 :=
  ⟨a.y * b.z - a.z * b.y, a.z * b.x - a.x * b.z, a.x * b.y - a.y * b.x⟩

/-- The squared Euclidean norm. -/
def normSq (v : Vec3) : ℝ :=
  dot v v

/-- np.linalg.norm of a 3-vector. -/
noncomputable def norm (v : Vec3) : ℝ :=
  Real.sqrt (normSq v)

/-- Elementwise division of a vector by a scalar, the embedding of
the numpy v / s broadcast (the source normalizes each basis vector with it). -/
noncomputable def vdiv (v : Vec3) (s : ℝ) : Vec3 :=
  ⟨v.x / s, v.y / s, v.z / s⟩

@[simp] theorem vdiv_x (v : Vec3) (s : ℝ) : (vdiv v s).x = v.x / s := rfl

@[simp] theorem vdiv_y (v : Vec3) (s : ℝ) : (vdiv v s).y = v.y / s := rfl

@[simp] theorem vdiv_z (v : Vec3) (s : ℝ) : (vdiv v s).z = v.z / s := rfl

end Vec3

/-- A 3x3 matrix given by its three rows, the embedding of
np.array([x_hat, y_hat, z_hat]) in put_skeleton_on_ground. -/
structure Mat3 where
  r1 : Vec3
  r2 : Vec3
  r3 : Vec3

/-- Matrix-vector product for a matrix given by rows (numpy rotation_matrix @ v). -/
def Mat3.mulVec (m : Mat3) (v : Vec3) : Vec3 :=
  ⟨Vec3.dot m.r1 v, Vec3.dot m.r2 v, Vec3.dot m.r3 v⟩

/-- Determinant of the matrix with rows a, b, c (np.linalg.det), by the
Sarrus rule. -/
def Mat3.det3 (a b c : Vec3) : ℝ :=
  a.x * (b.y * c.z - b.z * c.y) - a.y * (b.x * c.z - b.z * c.x) +
    a.z * (b.x * c.y - b.y * c.x)

/-- Embedding of estimate_orthonormal_basis (put_skeleton_on_ground.py,
lines 91-147), after its shape guard: subtract the center from each
reference point, take z = forward x leftward, y = z x forward, x = y x z,
and divide each by its norm.  The z_up difference is computed by the source
and never used; it is kept here for fidelity. -/
noncomputable def estimateOrthonormalBasis (c f l u : Vec3) : Vec3 × Vec3 × Vec3 :=
  let xForward := f - c
  let yLeft := l - c
  let _zUp := u - c
  let zh := Vec3.cross xForward yLeft
  let yh := Vec3.cross zh xForward
  let xh := Vec3.cross yh zh
  (Vec3.vdiv xh (Vec3.norm xh), Vec3.vdiv yh (Vec3.norm yh), Vec3.vdiv zh (Vec3.norm zh))

/-- The scalar comparison of the claim: within 1e-6. -/
def close6 (a b : ℝ) : Prop :=
  |a - b| ≤ 1e-6

/-- Componentwise `close6` on vectors. -/
def vclose6 (a b : Vec3) : Prop :=
  close6 a.x b.x ∧ close6 a.y b.y ∧ close6 a.z b.z

/-- Elementwise condition of np.allclose(a, b, atol=1e-6): numpy keeps its
default relative tolerance rtol=1e-5, so the test is |a - b| <= atol + rtol * |b|. -/
def npAllclose (a b : ℝ) : Prop :=
  |a - b| ≤ 1e-6 + 1e-5 * |b|

/-- Componentwise `npAllclose` on vectors. -/
def npVAllclose (a b : Vec3) : Prop :=
  npAllclose a.x b.x ∧ npAllclose a.y b.y ∧ npAllclose a.z b.z

/-- The validation bundle of the claim, at tolerance 1e-6: unit norms,
pairwise orthogonality, right-hand rule, the stacked-rows matrix sends the
basis to the standard basis, and its determinant is +1. -/
def orthonormalRH (xh yh zh : Vec3) : Prop :=
  close6 (Vec3.norm xh) 1 ∧ close6 (Vec3.norm yh) 1 ∧ close6 (Vec3.norm zh) 1 ∧
  close6 (Vec3.dot zh yh) 0 ∧ close6 (Vec3.dot zh xh) 0 ∧ close6 (Vec3.dot yh xh) 0 ∧
  vclose6 (Vec3.cross xh yh) zh ∧ vclose6 (Vec3.cross yh zh) xh ∧
  vclose6 (Vec3.cross zh xh) yh ∧
  vclose6 (Mat3.mulVec ⟨xh, yh, zh⟩ xh) ⟨1, 0, 0⟩ ∧
  vclose6 (Mat3.mulVec ⟨xh, yh, zh⟩ yh) ⟨0, 1, 0⟩ ∧
  vclose6 (Mat3.mulVec ⟨xh, yh, zh⟩ zh) ⟨0, 0, 1⟩ ∧
  close6 (Mat3.det3 xh yh zh) 1

/-- The thirteen assert statements of put_skeleton_on_ground (lines 46-62),
each an np.allclose with atol=1e-6, on the basis estimated from the four
reference points. -/
def groundAssertsPass (c f l u : Vec3) : Prop :=
  let b := estimateOrthonormalBasis c f l u
  let xh := b.1
  let yh := b.2.1
  let zh := b.2.2
  npAllclose (Vec3.norm xh) 1 ∧ npAllclose (Vec3.norm yh) 1 ∧
  npAllclose (Vec3.norm zh) 1 ∧
  npAllclose (Vec3.dot zh yh) 0 ∧ npAllclose (Vec3.dot zh xh) 0 ∧
  npAllclose (Vec3.dot yh xh) 0 ∧
  npVAllclose (Vec3.cross xh yh) zh ∧ npVAllclose (Vec3.cross yh zh) xh ∧
  npVAllclose (Vec3.cross zh xh) yh ∧
  npVAllclose (Mat3.mulVec ⟨xh, yh, zh⟩ xh) ⟨1, 0, 0⟩ ∧
  npVAllclose (Mat3.mulVec ⟨xh, yh, zh⟩ yh) ⟨0, 1, 0⟩ ∧
  npVAllclose (Mat3.mulVec ⟨xh, yh, zh⟩ zh) ⟨0, 0, 1⟩ ∧
  npAllclose (Mat3.det3 xh yh zh) 1

open Classical in
/-- The basis-plus-assert stage of put_skeleton_on_ground (lines 40-62): the
basis is estimated and the assert statements run; a failed assert raises
(AssertionError), so no basis is returned. -/
noncomputable def putSkeletonBasisStage (c f l u : Vec3) : Except String (Vec3 × Vec3 × Vec3) :=
  if groundAssertsPass c f l u then Except.ok (estimateOrthonormalBasis c f l u)
  else Except.error "assertion failed"

/-- Embedding of the shape guard of estimate_orthonormal_basis (lines 129-131):
a numpy array carrying its shape; the guard demands shape (3,). -/
structure NDArr where
  shape : List Nat
  data : List ℝ

/-- The first three data entries as a Vec3 (only used once the shape guard
has established shape = (3,)). -/
def NDArr.toVec3 (a : NDArr) : Vec3 :=
  ⟨a.data.getD 0 0, a.data.getD 1 0, a.data.getD 2 0⟩

/-- estimate_orthonormal_basis with its shape guard: if any of the four
reference points does not have shape (3,), a ValueError is raised before any
arithmetic is done. -/
noncomputable def estimateOrthonormalBasisChecked (c f l u : NDArr) :
    Except String (Vec3 × Vec3 × Vec3) :=
  if c.shape ≠ [3] ∨ f.shape ≠ [3] ∨ l.shape ≠ [3] ∨ u.shape ≠ [3] then
    Except.error "All reference points must be 3D vectors."
  else
    Except.ok (estimateOrthonormalBasis c.toVec3 f.toVec3 l.toVec3 u.toVec3)

/-- A point of one trajectory frame: each coordinate is a real number or NaN
(`none`).  numpy arithmetic propagates NaN through + and *. -/
structure OPt where
  x : Option ℝ
  y : Option ℝ
  z : Option ℝ

/-- NaN-propagating addition of two possibly-NaN scalars. -/
def oadd (a b : Option ℝ) : Option ℝ :=
  a.bind fun r => b.map fun s => r + s

/-- NaN-propagating product of a possibly-NaN scalar with a real. -/
def omulR (a : Option ℝ) (r : ℝ) : Option ℝ :=
  a.map fun s => s * r

/-- NaN-propagating difference of a possibly-NaN scalar and a real. -/
def osubR (a : Option ℝ) (r : ℝ) : Option ℝ :=
  a.map fun s => s - r

/-- Dot product of a real row vector with a possibly-NaN point
(one output coordinate of points @ rotation_matrix.T). -/
def odot (r : Vec3) (q : OPt) : Option ℝ :=
  oadd (oadd (omulR q.x r.x) (omulR q.y r.y)) (omulR q.z r.z)

/-- transform_points (lines 75-88) on one frame: translate by -center, then
rotate by the matrix whose rows are the basis vectors (point @ R.T). -/
def transformPointO (c : Vec3) (R : Mat3) (p : OPt) : OPt :=
  let q : OPt := ⟨osubR p.x c.x, osubR p.y c.y, osubR p.z c.z⟩
  ⟨odot R.r1 q, odot R.r2 q, odot R.r3 q⟩

/-- Whether a frame carries any NaN coordinate. -/
def OPt.hasNaN (p : OPt) : Bool :=
  p.x.isNone || p.y.isNone || p.z.isNone

/-- The KeypointTrajectories mapping: keypoint name to its per-frame data,
keys in insertion order as a Python dict keeps them. -/
abbrev TrajMap := List (String × List OPt)

/-- The transform loop of put_skeleton_on_ground (lines 66-72): every
trajectory of every keypoint is mapped frame by frame through
transform_points with the one center and rotation matrix. -/
def transformStage (c : Vec3) (R : Mat3) (trajs : TrajMap) : TrajMap :=
  trajs.map fun kv => (kv.1, kv.2.map (transformPointO c R))

/-- np.nanmean over a list of possibly-NaN scalars: the mean of the non-NaN
entries, NaN when there is none. -/
noncomputable def nanmean (xs : List (Option ℝ)) : Option ℝ :=
  let vs := xs.filterMap id
  if vs.length = 0 then none else some (vs.sum / (vs.length : ℝ))

/-- np.nanmean over points, axis 0: coordinatewise nanmean. -/
noncomputable def nanmeanPts (ps : List OPt) : OPt :=
  ⟨nanmean (ps.map OPt.x), nanmean (ps.map OPt.y), nanmean (ps.map OPt.z)⟩

/-- A frame with no NaN as an exact real vector. -/
def OPt.toVec3 : OPt → Option Vec3
  | ⟨some a, some b, some c⟩ => some ⟨a, b, c⟩
  | _ => none

/-- A real-vector representative of a possibly-NaN frame, used only for the
up-reference row: estimate_orthonormal_basis computes z_up from that
argument (line 135) and never uses it, so any representative gives the same
basis (estimate_basis_up_reference_unused below); NaN coordinates are
replaced by 0. -/
def OPt.repVec3 (p : OPt) : Vec3 :=
  ⟨p.x.getD 0, p.y.getD 0, p.z.getD 0⟩

/-- The lowercased BodyKeypoints member names the source looks up: RIGHT_HEEL,
LEFT_HEEL, RIGHT_HALLUX_TIP, LEFT_HALLUX_TIP and SKULL_ORIGIN_FORAMEN_MAGNUM. -/
def rightHeelKey : String := "right_heel"

def leftHeelKey : String := "left_heel"

def rightHalluxKey : String := "right_hallux_tip"

def leftHalluxKey : String := "left_hallux_tip"

def skullKey : String := "skull_origin_foramen_magnum"

/-- The reference row of one keypoint at the good frame, as an exact vector
when it exists and carries no NaN. -/
def refRow (trajs : TrajMap) (key : String) (goodFrame : Nat) : Option Vec3 :=
  ((trajs.lookup key).bind fun tr => tr.get? goodFrame).bind OPt.toVec3

open Classical in
/-- Embedding of put_skeleton_on_ground (lines 11-72).  The good frame comes
from get_low_velocity_frame, a module that is not part of the sources here,
so it is taken as a parameter.  A missing key (Python KeyError) and a
missing frame row (IndexError) abort with `none`; a NaN coordinate in the
computed center, forward or leftward reference point makes the basis NaN so
the asserts throw, modelled by the `toVec3` binds aborting with `none`; a
failed assert aborts likewise.  The skull (up-reference) row is looked up
and indexed like the others but estimate_orthonormal_basis never uses its
value (line 135 is dead), so a NaN there does not abort: only a
representative real vector is passed on.  On success the deep-copied,
transformed mapping is returned. -/
noncomputable def putSkeletonOnGroundPipeline (goodFrame : Nat) (trajs : TrajMap) :
    Option TrajMap := do
  let rightHeel ← trajs.lookup rightHeelKey
  let leftHeel ← trajs.lookup leftHeelKey
  let rightHallux ← trajs.lookup rightHalluxKey
  let leftHallux ← trajs.lookup leftHalluxKey
  let skullTraj ← trajs.lookup skullKey
  let rhRow ← rightHeel.get? goodFrame
  let lhRow ← leftHeel.get? goodFrame
  let rxRow ← rightHallux.get? goodFrame
  let lxRow ← leftHallux.get? goodFrame
  let skullRow ← skullTraj.get? goodFrame
  let center := nanmeanPts [rhRow, lhRow, rxRow, lxRow]
  let forwardRef := nanmeanPts [rxRow, lxRow]
  let leftwardRef := nanmeanPts [lxRow, lhRow]
  let cV ← center.toVec3
  let fV ← forwardRef.toVec3
  let lV ← leftwardRef.toVec3
  let uV := skullRow.repVec3
  let b := estimateOrthonormalBasis cV fV lV uV
  if groundAssertsPass cV fV lV uV then
    pure (transformStage cV ⟨b.1, b.2.1, b.2.2⟩ trajs)
  else
    none

/-- A named keypoint (keypoint_rigidbody_linkage_chain_abc.py, Keypoint):
a frozen value type whose equality, as for a Python dataclass, is by field
value, i.e. by name. -/
structure Keypoint where
  name : String
deriving DecidableEq

/-- A rigid body: the Simple variant holds parent and child keypoints, the
Compound variant parent, children, shared_keypoint, positive_x_direction and
the optional approximate y-direction keypoints. -/
inductive RigidBody where
  | simple (parent child : Keypoint) : RigidBody
  | compound (parent : Keypoint) (children : List Keypoint)
      (sharedKeypoint positiveXDirection : Keypoint)
      (approxPosY approxNegY : Option Keypoint) : RigidBody
deriving DecidableEq

/-- SimpleRigidBodyABC.__post_init__ (lines 56-60): the isinstance guard is
vacuous for Keypoint-typed values; the body errors exactly when parent and
child are equal. -/
def simpleRigidBodyPostInit (parent child : Keypoint) : Except String Unit :=
  if parent = child then Except.error "Parent and child keypoints must be different"
  else Except.ok ()

/-- Membership test a Python `k in children` does: any child equal to k. -/
def kpMember (children : List Keypoint) (k : Keypoint) : Bool :=
  children.any fun c => c == k

/-- The test `self.approximate_..._y_direction and k not in children`: a
present optional keypoint lying outside the children list (None is falsy,
a Keypoint dataclass instance is always truthy). -/
def optOutside (children : List Keypoint) : Option Keypoint → Bool
  | none => false
  | some k => ! kpMember children k

/-- CompoundRigidBodyABC.__post_init__ (lines 85-102), checks in source
order: shared_keypoint in children, positive_x_direction in children, each
provided approximate y-direction in children, and at least one approximate
y-direction provided.  Interpolated reprs are omitted from the messages. -/
def compoundRigidBodyPostInit (children : List Keypoint)
    (shared posX : Keypoint) (posY negY : Option Keypoint) : Except String Unit :=
  if ! kpMember children shared then
    Except.error ("Shared keypoint " ++ shared.name ++ " not found in children")
  else if ! kpMember children posX then
    Except.error ("Positive X direction " ++ posX.name ++ " not found in children")
  else if optOutside children posY then
    Except.error "Approximate Positive Y direction not found in children"
  else if optOutside children negY then
    Except.error "Approximate Negative Y direction not found in children"
  else if posY.isNone && negY.isNone then
    Except.error
      "At least one of approximate_positive_y_direction or approximate_negative_y_direction must be defined"
  else Except.ok ()

/-- One step of LinkageABC.__post_init__ (lines 132-142): the inner check of
one keypoint against one element of the iterated list [self.parent,
self.children].  The second element of that list is the children *list*
itself, so it matches neither isinstance branch and raises. -/
def linkageMemberCheck (body : Sum RigidBody (List RigidBody)) (k : Keypoint) :
    Except String Unit :=
  match body with
  | Sum.inl (RigidBody.simple p c) =>
      if k = p ∨ k = c then Except.ok ()
      else Except.error ("Common keypoint " ++ k.name ++ " not found in body")
  | Sum.inl (RigidBody.compound p ch _ _ _ _) =>
      if k = p ∨ kpMember ch k then Except.ok ()
      else Except.error ("Common keypoint " ++ k.name ++ " not found in body")
  | Sum.inr _ => Except.error "Body is not a valid rigid body type"

/-- The inner loop over linked_keypoints for one iterated element. -/
def linkageBodyLoop (body : Sum RigidBody (List RigidBody)) :
    List Keypoint → Except String Unit
  | [] => Except.ok ()
  | k :: rest =>
      match linkageMemberCheck body k with
      | Except.error e => Except.error e
      | Except.ok _ => linkageBodyLoop body rest

/-- LinkageABC.__post_init__ as written: `for body in [self.parent,
self.children]` iterates over exactly two elements, the parent rigid body
and the raw children list. -/
def linkagePostInit (parent : RigidBody) (children : List RigidBody)
    (linked : List Keypoint) : Except String Unit :=
  match linkageBodyLoop (Sum.inl parent) linked with
  | Except.error e => Except.error e
  | Except.ok _ => linkageBodyLoop (Sum.inr children) linked

/-- A linkage record (fields of LinkageABC). -/
structure Linkage where
  parent : RigidBody
  children : List RigidBody
  linkedKeypoints : List Keypoint
deriving DecidableEq

/-- A chain record (fields of ChainABC). -/
structure Chain where
  parent : Linkage
  children : List Linkage
  sharedBodies : List RigidBody
deriving DecidableEq

/-- The loop of ChainABC.__post_init__ (lines 168-171): each declared shared
body must be the parent of some child linkage. -/
def chainSharedLoop (children : List Linkage) : List RigidBody → Except String Unit
  | [] => Except.ok ()
  | b :: rest =>
      if children.any (fun lk => lk.parent == b) then chainSharedLoop children rest
      else Except.error "Shared body not found in children"

/-- Constructing a chain as the code actually behaves: ChainABC is declared
without the dataclass decorator (unlike LinkageABC and the rigid-body
classes), so Python generates no __init__ that would call __post_init__, and
building a chain record runs no validation at all. -/
def chainConstruct (parent : Linkage) (children : List Linkage)
    (sharedBodies : List RigidBody) : Chain :=
  ⟨parent, children, sharedBodies⟩

/-- The field names the KeypointMapping dataclass declares (lines 199-201):
mapping and weights. -/
def keypointMappingFields : List String :=
  ["mapping", "weights"]

/-- KeypointMapping.__post_init__ (lines 203-211).  Its first statement
reads self.source_keypoints; the dataclass declares no such field, so the
attribute lookup raises AttributeError before any validation runs.  The
remaining statements (weight defaulting, the count check and the exact
sum-to-1 check) are translated after the lookup guard and are unreachable. -/
def keypointMappingPostInit (mapping : List String) (weights : Option (List ℚ)) :
    Except String (List String × List ℚ) :=
  if "source_keypoints" ∈ keypointMappingFields then
    let sk := mapping
    let ws := weights.getD (List.replicate sk.length ((1 : ℚ) / (sk.length : ℚ)))
    if sk.length ≠ ws.length then
      Except.error "The number of parent keypoints must match the number of weights"
    else if ws.sum ≠ 1 then
      Except.error "The sum of the weights must be 1"
    else Except.ok (sk, ws)
  else
    Except.error "AttributeError: KeypointMapping object has no attribute source_keypoints"

/-- A heap of trajectory objects for the mutation model: each trajectory
object is a cell, identified by a number, holding its trajectory_data
array. -/
abbrev Heap := Nat → Option (List OPt)

/-- Writing one cell of the heap. -/
def setCell (h : Heap) (i : Nat) (d : List OPt) : Heap :=
  fun j => if j = i then some d else h j

/-- deepcopy(keypoint_trajectories): every entry gets a fresh trajectory
object (ids counting up from the allocation counter) holding a copy of the
original data.  Returns the copied mapping, the heap and the new counter. -/
def deepcopyTrajs : List (String × Nat) → Heap → Nat →
    (List (String × Nat)) × Heap × Nat
  | [], h, n => ([], h, n)
  | (k, i) :: rest, h, n =>
      let d := (h i).getD []
      let r := deepcopyTrajs rest (setCell h n d) (n + 1)
      ((k, n) :: r.1, r.2.1, r.2.2)

/-- The write loop of put_skeleton_on_ground (lines 66-71): for each key of
the copied mapping, read the trajectory_data of the ORIGINAL mapping and store
the transformed array into the trajectory object of the copy. -/
def transformLoop (c : Vec3) (R : Mat3) (orig : List (String × Nat)) :
    List (String × Nat) → Heap → Heap
  | [], h => h
  | (k, i) :: rest, h =>
      let src :=
        match orig.lookup k with
        | some j => (h j).getD []
        | none => []
      transformLoop c R orig rest (setCell h i (src.map (transformPointO c R)))

/-- The trajectory handling of put_skeleton_on_ground as heap operations: deep
copy, then write transformed data into the copies only. -/
def putSkeletonOnGroundStore (m : List (String × Nat)) (h : Heap) (n : Nat)
    (c : Vec3) (R : Mat3) : (List (String × Nat)) × Heap :=
  let d := deepcopyTrajs m h n
  (d.1, transformLoop c R m d.1 d.2.1)

/-- A frame with all coordinates present. -/
def pt (a b c : ℝ) : OPt :=
  ⟨some a, some b, some c⟩

/-- A concrete five-key trajectory mapping with one frame, whose reference
geometry is the standard frame: heels behind, hallux tips in front, skull
above the center. -/
noncomputable def trajsC : TrajMap :=
  [(rightHeelKey, [pt (-1) (-1) 0]),
   (leftHeelKey, [pt (-1) 1 0]),
   (rightHalluxKey, [pt 1 (-1) 0]),
   (leftHalluxKey, [pt 1 1 0]),
   (skullKey, [pt 0 0 1])]

/-- The rotation matrix the concrete mapping yields: the identity rows. -/
def matC : Mat3 :=
  ⟨⟨1, 0, 0⟩, ⟨0, 1, 0⟩, ⟨0, 0, 1⟩⟩

/-- The transformed output for the concrete mapping. -/
noncomputable def outC : TrajMap :=
  transformStage ⟨0, 0, 0⟩ matC trajsC

namespace Vec3

theorem dot_comm (a b : Vec3) : dot a b = dot b a := by
  simp only [dot]; ring

theorem dot_cross_self_left (a b : Vec3) : dot (cross a b) a = 0 := by
  rcases a with ⟨ax, ay, az⟩; rcases b with ⟨bx, by', bz⟩
  simp only [dot, cross]; ring

theorem dot_cross_self_right (a b : Vec3) : dot (cross a b) b = 0 := by
  rcases a with ⟨ax, ay, az⟩; rcases b with ⟨bx, by', bz⟩
  simp only [dot, cross]; ring

theorem normSq_cross (a b : Vec3) :
    normSq (cross a b) = normSq a * normSq b - dot a b ^ 2 := by
  rcases a with ⟨ax, ay, az⟩; rcases b with ⟨bx, by', bz⟩
  simp only [normSq, dot, cross]; ring

theorem cross_cross_right (a b : Vec3) :
    cross (cross a b) b = dot a b • b - dot b b • a := by
  rcases a with ⟨ax, ay, az⟩; rcases b with ⟨bx, by', bz⟩
  ext <;> simp [dot, cross] <;> ring

theorem cross_cross_outer (a b : Vec3) :
    cross a (cross a b) = dot a b • a - dot a a • b := by
  rcases a with ⟨ax, ay, az⟩; rcases b with ⟨bx, by', bz⟩
  ext <;> simp [dot, cross] <;> ring

theorem normSq_nonneg (v : Vec3) : 0 ≤ normSq v := by
  rcases v with ⟨a, b, c⟩
  simp only [normSq, dot]
  nlinarith [mul_self_nonneg a, mul_self_nonneg b, mul_self_nonneg c]

theorem normSq_pos (v : Vec3) (h : v ≠ 0) : 0 < normSq v := by
  rcases lt_or_eq_of_le (normSq_nonneg v) with hlt | heq
  · exact hlt
  · exfalso
    apply h
    rcases v with ⟨a, b, c⟩
    simp only [normSq, dot] at heq
    have ha : a = 0 := by nlinarith [sq_nonneg a, sq_nonneg b, sq_nonneg c]
    have hb : b = 0 := by nlinarith [sq_nonneg a, sq_nonneg b, sq_nonneg c]
    have hc : c = 0 := by nlinarith [sq_nonneg a, sq_nonneg b, sq_nonneg c]
    ext <;> simp [ha, hb, hc]

theorem norm_nonneg (v : Vec3) : 0 ≤ norm v :=
  Real.sqrt_nonneg _

theorem norm_mul_self (v : Vec3) : norm v * norm v = normSq v :=
  Real.mul_self_sqrt (normSq_nonneg v)

theorem norm_pos (v : Vec3) (h : v ≠ 0) : 0 < norm v :=
  Real.sqrt_pos.mpr (normSq_pos v h)

theorem norm_smul_nonneg (s : ℝ) (hs : 0 ≤ s) (v : Vec3) :
    norm (s • v) = s * norm v := by
  rcases v with ⟨a, b, c⟩
  simp only [norm, normSq, dot, smul_x, smul_y, smul_z]
  rw [show s * a * (s * a) + s * b * (s * b) + s * c * (s * c) =
      s ^ 2 * (a * a + b * b + c * c) by ring]
  rw [Real.sqrt_mul (sq_nonneg s), Real.sqrt_sq hs]

theorem dot_vdiv_vdiv (a b : Vec3) (s t : ℝ) :
    dot (vdiv a s) (vdiv b t) = dot a b / (s * t) := by
  rcases a with ⟨ax, ay, az⟩; rcases b with ⟨bx, by', bz⟩
  simp only [dot, vdiv]
  ring

theorem cross_vdiv_vdiv (a b : Vec3) (s t : ℝ) :
    cross (vdiv a s) (vdiv b t) = vdiv (cross a b) (s * t) := by
  rcases a with ⟨ax, ay, az⟩; rcases b with ⟨bx, by', bz⟩
  ext <;> simp [cross, vdiv] <;> ring

theorem vdiv_smul_cancel (s t : ℝ) (hs : s ≠ 0) (v : Vec3) :
    vdiv (s • v) (s * t) = vdiv v t := by
  ext <;> simp only [vdiv_x, vdiv_y, vdiv_z, smul_x, smul_y, smul_z] <;>
    exact mul_div_mul_left _ _ hs

theorem normSq_vdiv (v : Vec3) (s : ℝ) : normSq (vdiv v s) = normSq v / (s * s) := by
  rcases v with ⟨a, b, c⟩
  simp only [normSq, dot, vdiv]
  ring

theorem norm_vdiv_norm (v : Vec3) (h : v ≠ 0) : norm (vdiv v (norm v)) = 1 := by
  have hv : normSq v ≠ 0 := ne_of_gt (normSq_pos v h)
  simp only [norm, normSq_vdiv]
  rw [show Real.sqrt (normSq v) * Real.sqrt (normSq v) = normSq v from
    Real.mul_self_sqrt (normSq_nonneg v)]
  rw [div_self hv, Real.sqrt_one]

theorem vdiv_zero_vec (s : ℝ) : vdiv (0 : Vec3) s = 0 := by
  ext <;> simp

theorem cross_zero_left (v : Vec3) : cross 0 v = 0 := by
  ext <;> simp [cross]

theorem norm_zero_vec : norm (0 : Vec3) = 0 := by
  simp [norm, normSq, dot]

end Vec3

namespace Vec3

theorem triple_cross (a b c : Vec3) :
    cross (cross a b) c = dot a c • b - dot b c • a := by
  rcases a with ⟨ax, ay, az⟩; rcases b with ⟨bx, by', bz⟩; rcases c with ⟨cx, cy, cz⟩
  ext <;> simp [dot, cross] <;> ring

theorem triple_cross₂ (a b c : Vec3) :
    cross a (cross b c) = dot a c • b - dot a b • c := by
  rcases a with ⟨ax, ay, az⟩; rcases b with ⟨bx, by', bz⟩; rcases c with ⟨cx, cy, cz⟩
  ext <;> simp [dot, cross] <;> ring

theorem sub_zero_smul (s : ℝ) (v w : Vec3) : s • v - (0 : ℝ) • w = s • v := by
  ext <;> simp

end Vec3

theorem Mat3.det3_eq_dot_cross (a b c : Vec3) :
    Mat3.det3 a b c = Vec3.dot a (Vec3.cross b c) := by
  rcases a with ⟨ax, ay, az⟩; rcases b with ⟨bx, by', bz⟩; rcases c with ⟨cx, cy, cz⟩
  simp only [Mat3.det3, Vec3.dot, Vec3.cross]
  ring

/-- The up-reference argument is dead in estimate_orthonormal_basis: z_up
(line 135) is computed and never used, so the returned basis is the same for
any up-reference point. -/
theorem estimate_basis_up_reference_unused (c f l u u' : Vec3) :
    estimateOrthonormalBasis c f l u = estimateOrthonormalBasis c f l u' :=
  rfl

/-- Consequently the assert stage is also independent of the up-reference
point. -/
theorem ground_asserts_up_reference_unused (c f l u u' : Vec3) :
    groundAssertsPass c f l u ↔ groundAssertsPass c f l u' :=
  Iff.rfl

theorem basis_closed_form (c f l u : Vec3)
    (h : Vec3.cross (f - c) (l - c) ≠ 0) :
    estimateOrthonormalBasis c f l u =
      (Vec3.vdiv (f - c) (Vec3.norm (f - c)),
       Vec3.vdiv (Vec3.cross (Vec3.cross (f - c) (l - c)) (f - c))
         (Vec3.norm (Vec3.cross (f - c) (l - c)) * Vec3.norm (f - c)),
       Vec3.vdiv (Vec3.cross (f - c) (l - c))
         (Vec3.norm (Vec3.cross (f - c) (l - c)))) := by
  have hFne : f - c ≠ 0 := by
    intro hF0
    apply h
    rw [hF0, Vec3.cross_zero_left]
  have hzSq : Vec3.normSq (Vec3.cross (f - c) (l - c)) ≠ 0 :=
    ne_of_gt (Vec3.normSq_pos _ h)
  have hdotzF : Vec3.dot (Vec3.cross (f - c) (l - c)) (f - c) = 0 :=
    Vec3.dot_cross_self_left _ _
  have hx0 : Vec3.cross (Vec3.cross (Vec3.cross (f - c) (l - c)) (f - c))
      (Vec3.cross (f - c) (l - c)) =
      Vec3.normSq (Vec3.cross (f - c) (l - c)) • (f - c) := by
    rw [Vec3.triple_cross]
    rw [show Vec3.dot (f - c) (Vec3.cross (f - c) (l - c)) = 0 from
      (Vec3.dot_comm _ _).trans hdotzF]
    rw [Vec3.sub_zero_smul]
    rfl
  have hnx0 : Vec3.norm (Vec3.normSq (Vec3.cross (f - c) (l - c)) • (f - c)) =
      Vec3.normSq (Vec3.cross (f - c) (l - c)) * Vec3.norm (f - c) :=
    Vec3.norm_smul_nonneg _ (Vec3.normSq_nonneg _) _
  have hny0 : Vec3.norm (Vec3.cross (Vec3.cross (f - c) (l - c)) (f - c)) =
      Vec3.norm (Vec3.cross (f - c) (l - c)) * Vec3.norm (f - c) := by
    simp only [Vec3.norm]
    rw [Vec3.normSq_cross, hdotzF]
    rw [show Vec3.normSq (Vec3.cross (f - c) (l - c)) * Vec3.normSq (f - c) - 0 ^ 2 =
      Vec3.normSq (Vec3.cross (f - c) (l - c)) * Vec3.normSq (f - c) by ring]
    exact Real.sqrt_mul (Vec3.normSq_nonneg _) _
  simp only [estimateOrthonormalBasis]
  refine Prod.ext ?_ (Prod.ext ?_ ?_)
  · show Vec3.vdiv (Vec3.cross (Vec3.cross (Vec3.cross (f - c) (l - c)) (f - c))
        (Vec3.cross (f - c) (l - c)))
      (Vec3.norm (Vec3.cross (Vec3.cross (Vec3.cross (f - c) (l - c)) (f - c))
        (Vec3.cross (f - c) (l - c)))) = Vec3.vdiv (f - c) (Vec3.norm (f - c))
    rw [hx0, hnx0]
    exact Vec3.vdiv_smul_cancel _ _ hzSq _
  · show Vec3.vdiv (Vec3.cross (Vec3.cross (f - c) (l - c)) (f - c))
        (Vec3.norm (Vec3.cross (Vec3.cross (f - c) (l - c)) (f - c))) =
      Vec3.vdiv (Vec3.cross (Vec3.cross (f - c) (l - c)) (f - c))
        (Vec3.norm (Vec3.cross (f - c) (l - c)) * Vec3.norm (f - c))
    rw [hny0]
  · rfl

theorem close6_of_eq {a b : ℝ} (h : a = b) : close6 a b := by
  simp only [close6, h, sub_self, abs_zero]
  norm_num

theorem vclose6_of_eq {a b : Vec3} (h : a = b) : vclose6 a b :=
  ⟨close6_of_eq (by rw [h]), close6_of_eq (by rw [h]), close6_of_eq (by rw [h])⟩

theorem npAllclose_of_eq {a b : ℝ} (h : a = b) : npAllclose a b := by
  simp only [npAllclose, h, sub_self, abs_zero]
  positivity

theorem npVAllclose_of_eq {a b : Vec3} (h : a = b) : npVAllclose a b :=
  ⟨npAllclose_of_eq (by rw [h]), npAllclose_of_eq (by rw [h]),
   npAllclose_of_eq (by rw [h])⟩

theorem Vec3.normSq_zero : Vec3.normSq (0 : Vec3) = 0 := by
  simp [Vec3.normSq, Vec3.dot]

theorem basis_props_core (F L : Vec3) (hz : Vec3.cross F L ≠ 0) :
    Vec3.norm (Vec3.vdiv F (Vec3.norm F)) = 1 ∧
    Vec3.norm (Vec3.vdiv (Vec3.cross (Vec3.cross F L) F)
      (Vec3.norm (Vec3.cross F L) * Vec3.norm F)) = 1 ∧
    Vec3.norm (Vec3.vdiv (Vec3.cross F L) (Vec3.norm (Vec3.cross F L))) = 1 ∧
    Vec3.dot (Vec3.vdiv (Vec3.cross F L) (Vec3.norm (Vec3.cross F L)))
      (Vec3.vdiv (Vec3.cross (Vec3.cross F L) F)
        (Vec3.norm (Vec3.cross F L) * Vec3.norm F)) = 0 ∧
    Vec3.dot (Vec3.vdiv (Vec3.cross F L) (Vec3.norm (Vec3.cross F L)))
      (Vec3.vdiv F (Vec3.norm F)) = 0 ∧
    Vec3.dot (Vec3.vdiv (Vec3.cross (Vec3.cross F L) F)
        (Vec3.norm (Vec3.cross F L) * Vec3.norm F))
      (Vec3.vdiv F (Vec3.norm F)) = 0 ∧
    Vec3.cross (Vec3.vdiv F (Vec3.norm F))
      (Vec3.vdiv (Vec3.cross (Vec3.cross F L) F)
        (Vec3.norm (Vec3.cross F L) * Vec3.norm F)) =
      Vec3.vdiv (Vec3.cross F L) (Vec3.norm (Vec3.cross F L)) ∧
    Vec3.cross (Vec3.vdiv (Vec3.cross (Vec3.cross F L) F)
        (Vec3.norm (Vec3.cross F L) * Vec3.norm F))
      (Vec3.vdiv (Vec3.cross F L) (Vec3.norm (Vec3.cross F L))) =
      Vec3.vdiv F (Vec3.norm F) ∧
    Vec3.cross (Vec3.vdiv (Vec3.cross F L) (Vec3.norm (Vec3.cross F L)))
      (Vec3.vdiv F (Vec3.norm F)) =
      Vec3.vdiv (Vec3.cross (Vec3.cross F L) F)
        (Vec3.norm (Vec3.cross F L) * Vec3.norm F) ∧
    Vec3.dot (Vec3.vdiv F (Vec3.norm F)) (Vec3.vdiv F (Vec3.norm F)) = 1 ∧
    Vec3.dot (Vec3.vdiv (Vec3.cross (Vec3.cross F L) F)
        (Vec3.norm (Vec3.cross F L) * Vec3.norm F))
      (Vec3.vdiv (Vec3.cross (Vec3.cross F L) F)
        (Vec3.norm (Vec3.cross F L) * Vec3.norm F)) = 1 ∧
    Vec3.dot (Vec3.vdiv (Vec3.cross F L) (Vec3.norm (Vec3.cross F L)))
      (Vec3.vdiv (Vec3.cross F L) (Vec3.norm (Vec3.cross F L))) = 1 := by
  have hFne : F ≠ 0 := by
    intro h0
    apply hz
    rw [h0, Vec3.cross_zero_left]
  have hSqF : Vec3.normSq F ≠ 0 := ne_of_gt (Vec3.normSq_pos F hFne)
  have hSqz : Vec3.normSq (Vec3.cross F L) ≠ 0 := ne_of_gt (Vec3.normSq_pos _ hz)
  have hnf : Vec3.norm F * Vec3.norm F = Vec3.normSq F := Vec3.norm_mul_self F
  have hnz : Vec3.norm (Vec3.cross F L) * Vec3.norm (Vec3.cross F L) =
      Vec3.normSq (Vec3.cross F L) := Vec3.norm_mul_self _
  have hdotzF : Vec3.dot (Vec3.cross F L) F = 0 := Vec3.dot_cross_self_left F L
  have hdotFz : Vec3.dot F (Vec3.cross F L) = 0 :=
    (Vec3.dot_comm _ _).trans hdotzF
  have hdotyz : Vec3.dot (Vec3.cross (Vec3.cross F L) F) (Vec3.cross F L) = 0 :=
    Vec3.dot_cross_self_left _ _
  have hdotzy : Vec3.dot (Vec3.cross F L) (Vec3.cross (Vec3.cross F L) F) = 0 :=
    (Vec3.dot_comm _ _).trans hdotyz
  have hdotyF : Vec3.dot (Vec3.cross (Vec3.cross F L) F) F = 0 :=
    Vec3.dot_cross_self_right _ _
  have hnormSqy : Vec3.normSq (Vec3.cross (Vec3.cross F L) F) =
      Vec3.normSq (Vec3.cross F L) * Vec3.normSq F := by
    rw [Vec3.normSq_cross, hdotzF]
    ring
  have hny : Vec3.norm (Vec3.cross (Vec3.cross F L) F) =
      Vec3.norm (Vec3.cross F L) * Vec3.norm F := by
    simp only [Vec3.norm]
    rw [hnormSqy, Real.sqrt_mul (Vec3.normSq_nonneg _)]
  have hy0pos : 0 < Vec3.normSq (Vec3.cross (Vec3.cross F L) F) := by
    rw [hnormSqy]
    exact mul_pos (Vec3.normSq_pos _ hz) (Vec3.normSq_pos _ hFne)
  have hy0ne : Vec3.cross (Vec3.cross F L) F ≠ 0 := by
    intro h0
    rw [h0, Vec3.normSq_zero] at hy0pos
    exact lt_irrefl 0 hy0pos
  have hdd : Vec3.dot F F = Vec3.normSq F := rfl
  have hddz : Vec3.dot (Vec3.cross F L) (Vec3.cross F L) =
      Vec3.normSq (Vec3.cross F L) := rfl
  refine ⟨Vec3.norm_vdiv_norm F hFne, ?_, Vec3.norm_vdiv_norm _ hz, ?_, ?_, ?_,
    ?_, ?_, ?_, ?_, ?_, ?_⟩
  · rw [← hny]
    exact Vec3.norm_vdiv_norm _ hy0ne
  · rw [Vec3.dot_vdiv_vdiv, hdotzy, zero_div]
  · rw [Vec3.dot_vdiv_vdiv, hdotzF, zero_div]
  · rw [Vec3.dot_vdiv_vdiv, hdotyF, zero_div]
  · rw [Vec3.cross_vdiv_vdiv, Vec3.triple_cross₂, hdotFz, Vec3.sub_zero_smul, hdd]
    rw [show Vec3.norm F * (Vec3.norm (Vec3.cross F L) * Vec3.norm F) =
      Vec3.normSq F * Vec3.norm (Vec3.cross F L) by rw [← hnf]; ring]
    exact Vec3.vdiv_smul_cancel _ _ hSqF _
  · rw [Vec3.cross_vdiv_vdiv, Vec3.triple_cross, hdotFz, Vec3.sub_zero_smul, hddz]
    rw [show Vec3.norm (Vec3.cross F L) * Vec3.norm F * Vec3.norm (Vec3.cross F L) =
      Vec3.normSq (Vec3.cross F L) * Vec3.norm F by rw [← hnz]; ring]
    exact Vec3.vdiv_smul_cancel _ _ hSqz _
  · rw [Vec3.cross_vdiv_vdiv]
  · rw [Vec3.dot_vdiv_vdiv, hdd, hnf, div_self hSqF]
  · rw [Vec3.dot_vdiv_vdiv]
    rw [show Vec3.dot (Vec3.cross (Vec3.cross F L) F) (Vec3.cross (Vec3.cross F L) F) =
      Vec3.normSq (Vec3.cross (Vec3.cross F L) F) from rfl]
    rw [hnormSqy]
    rw [show Vec3.norm (Vec3.cross F L) * Vec3.norm F *
        (Vec3.norm (Vec3.cross F L) * Vec3.norm F) =
      Vec3.normSq (Vec3.cross F L) * Vec3.normSq F by rw [← hnz, ← hnf]; ring]
    exact div_self (mul_ne_zero hSqz hSqF)
  · rw [Vec3.dot_vdiv_vdiv, hddz, hnz, div_self hSqz]

theorem basis_degenerate_zh (c f l u : Vec3)
    (h : Vec3.cross (f - c) (l - c) = 0) :
    (estimateOrthonormalBasis c f l u).2.2 = 0 := by
  show Vec3.vdiv (Vec3.cross (f - c) (l - c))
    (Vec3.norm (Vec3.cross (f - c) (l - c))) = 0
  rw [h, Vec3.vdiv_zero_vec]

/-- C1: for every non-degenerate reference quadruple (forward and leftward
offsets from the center non-zero and non-collinear, i.e. their cross product
is non-zero), the basis returned by estimate_orthonormal_basis has unit
norms, is mutually orthogonal, obeys the right-hand rule, its stacked-rows
matrix maps it to the standard basis and has determinant +1, all within
1e-6 (here: exactly), and the assert stage then returns the basis; when the
checks fail -- in particular for collinear or coincident reference points --
put_skeleton_on_ground raises instead of returning a basis. -/
theorem estimate_orthonormal_basis_valid_or_loud (c f l u : Vec3) :
    (Vec3.cross (f - c) (l - c) ≠ 0 →
      orthonormalRH (estimateOrthonormalBasis c f l u).1
        (estimateOrthonormalBasis c f l u).2.1
        (estimateOrthonormalBasis c f l u).2.2 ∧
      putSkeletonBasisStage c f l u =
        Except.ok (estimateOrthonormalBasis c f l u)) ∧
    (¬ groundAssertsPass c f l u →
      putSkeletonBasisStage c f l u = Except.error "assertion failed") ∧
    (Vec3.cross (f - c) (l - c) = 0 → ¬ groundAssertsPass c f l u) := by
  refine ⟨fun hz => ?_, fun hn => ?_, fun hdeg => ?_⟩
  · obtain ⟨h1, h2, h3, h4, h5, h6, h7, h8, h9, h10, h11, h12⟩ :=
      basis_props_core (f - c) (l - c) hz
    have hcf := basis_closed_form c f l u hz
    have hpass : groundAssertsPass c f l u := by
      simp only [groundAssertsPass]
      rw [hcf]
      refine ⟨npAllclose_of_eq h1, npAllclose_of_eq h2, npAllclose_of_eq h3,
        npAllclose_of_eq h4, npAllclose_of_eq h5, npAllclose_of_eq h6,
        npVAllclose_of_eq h7, npVAllclose_of_eq h8, npVAllclose_of_eq h9,
        ⟨npAllclose_of_eq h10, npAllclose_of_eq h6, npAllclose_of_eq h5⟩,
        ⟨npAllclose_of_eq ((Vec3.dot_comm _ _).trans h6), npAllclose_of_eq h11,
         npAllclose_of_eq h4⟩,
        ⟨npAllclose_of_eq ((Vec3.dot_comm _ _).trans h5),
         npAllclose_of_eq ((Vec3.dot_comm _ _).trans h4),
         npAllclose_of_eq h12⟩, ?_⟩
      rw [Mat3.det3_eq_dot_cross, h8]
      exact npAllclose_of_eq h10
    constructor
    · rw [hcf]
      refine ⟨close6_of_eq h1, close6_of_eq h2, close6_of_eq h3,
        close6_of_eq h4, close6_of_eq h5, close6_of_eq h6,
        vclose6_of_eq h7, vclose6_of_eq h8, vclose6_of_eq h9,
        ⟨close6_of_eq h10, close6_of_eq h6, close6_of_eq h5⟩,
        ⟨close6_of_eq ((Vec3.dot_comm _ _).trans h6), close6_of_eq h11,
         close6_of_eq h4⟩,
        ⟨close6_of_eq ((Vec3.dot_comm _ _).trans h5),
         close6_of_eq ((Vec3.dot_comm _ _).trans h4), close6_of_eq h12⟩, ?_⟩
      rw [Mat3.det3_eq_dot_cross, h8]
      exact close6_of_eq h10
    · simp only [putSkeletonBasisStage]
      rw [if_pos hpass]
  · simp only [putSkeletonBasisStage]
    rw [if_neg hn]
  · intro hpass
    have hzh := basis_degenerate_zh c f l u hdeg
    simp only [groundAssertsPass] at hpass
    obtain ⟨-, -, h3, -⟩ := hpass
    rw [hzh, Vec3.norm_zero_vec] at h3
    simp only [npAllclose] at h3
    rw [show (0 : ℝ) - 1 = -1 by ring, abs_neg, abs_one] at h3
    norm_num at h3

/-- Witness for C1: the doctest quadruple center=[0,0,0], forward=[1,0,0],
left=[0,1,0], up=[0,0,1] is non-degenerate, so the validation bundle holds
of it and the assert stage returns its basis. -/
theorem estimate_orthonormal_basis_valid_or_loud_witness :
    orthonormalRH
      (estimateOrthonormalBasis ⟨0, 0, 0⟩ ⟨1, 0, 0⟩ ⟨0, 1, 0⟩ ⟨0, 0, 1⟩).1
      (estimateOrthonormalBasis ⟨0, 0, 0⟩ ⟨1, 0, 0⟩ ⟨0, 1, 0⟩ ⟨0, 0, 1⟩).2.1
      (estimateOrthonormalBasis ⟨0, 0, 0⟩ ⟨1, 0, 0⟩ ⟨0, 1, 0⟩ ⟨0, 0, 1⟩).2.2 ∧
    putSkeletonBasisStage ⟨0, 0, 0⟩ ⟨1, 0, 0⟩ ⟨0, 1, 0⟩ ⟨0, 0, 1⟩ =
      Except.ok (estimateOrthonormalBasis ⟨0, 0, 0⟩ ⟨1, 0, 0⟩ ⟨0, 1, 0⟩ ⟨0, 0, 1⟩) :=
  (estimate_orthonormal_basis_valid_or_loud ⟨0, 0, 0⟩ ⟨1, 0, 0⟩ ⟨0, 1, 0⟩ ⟨0, 0, 1⟩).1
    (by
      intro h0
      have hz1 := congrArg Vec3.z h0
      simp [Vec3.cross] at hz1)

/-- C2: estimate_orthonormal_basis orthogonalizes in exactly the order
z = forward x leftward, y = z x forward, x = y x z, then normalizes each;
consequently for every non-degenerate input the returned x_hat is exactly
the positive multiple 1/norm(forward) of the raw forward vector. -/
theorem estimate_basis_preserves_forward (c f l u : Vec3)
    (h : Vec3.cross (f - c) (l - c) ≠ 0) :
    estimateOrthonormalBasis c f l u =
      (let z := Vec3.cross (f - c) (l - c)
       let y := Vec3.cross z (f - c)
       let x := Vec3.cross y z
       (Vec3.vdiv x (Vec3.norm x), Vec3.vdiv y (Vec3.norm y),
        Vec3.vdiv z (Vec3.norm z))) ∧
    0 < (Vec3.norm (f - c))⁻¹ ∧
    (estimateOrthonormalBasis c f l u).1 = (Vec3.norm (f - c))⁻¹ • (f - c) := by
  have hFne : f - c ≠ 0 := by
    intro h0
    apply h
    rw [h0, Vec3.cross_zero_left]
  refine ⟨rfl, inv_pos.mpr (Vec3.norm_pos _ hFne), ?_⟩
  rw [basis_closed_form c f l u h]
  show Vec3.vdiv (f - c) (Vec3.norm (f - c)) = (Vec3.norm (f - c))⁻¹ • (f - c)
  ext <;>
    simp only [Vec3.vdiv_x, Vec3.vdiv_y, Vec3.vdiv_z, Vec3.smul_x, Vec3.smul_y,
      Vec3.smul_z] <;>
    rw [div_eq_inv_mul]

/-- Witness for C2 at the doctest quadruple: the forward direction [1,0,0]
is preserved exactly. -/
theorem estimate_basis_preserves_forward_witness :
    Vec3.cross ((⟨1, 0, 0⟩ : Vec3) - ⟨0, 0, 0⟩) ((⟨0, 1, 0⟩ : Vec3) - ⟨0, 0, 0⟩) ≠ 0 ∧
    (estimateOrthonormalBasis ⟨0, 0, 0⟩ ⟨1, 0, 0⟩ ⟨0, 1, 0⟩ ⟨0, 0, 1⟩ =
      (let z := Vec3.cross ((⟨1, 0, 0⟩ : Vec3) - ⟨0, 0, 0⟩) ((⟨0, 1, 0⟩ : Vec3) - ⟨0, 0, 0⟩)
       let y := Vec3.cross z ((⟨1, 0, 0⟩ : Vec3) - ⟨0, 0, 0⟩)
       let x := Vec3.cross y z
       (Vec3.vdiv x (Vec3.norm x), Vec3.vdiv y (Vec3.norm y),
        Vec3.vdiv z (Vec3.norm z))) ∧
     0 < (Vec3.norm ((⟨1, 0, 0⟩ : Vec3) - ⟨0, 0, 0⟩))⁻¹ ∧
     (estimateOrthonormalBasis ⟨0, 0, 0⟩ ⟨1, 0, 0⟩ ⟨0, 1, 0⟩ ⟨0, 0, 1⟩).1 =
       (Vec3.norm ((⟨1, 0, 0⟩ : Vec3) - ⟨0, 0, 0⟩))⁻¹ • ((⟨1, 0, 0⟩ : Vec3) - ⟨0, 0, 0⟩)) := by
  have hz : Vec3.cross ((⟨1, 0, 0⟩ : Vec3) - ⟨0, 0, 0⟩)
      ((⟨0, 1, 0⟩ : Vec3) - ⟨0, 0, 0⟩) ≠ 0 := by
    intro h0
    have hz1 := congrArg Vec3.z h0
    simp [Vec3.cross] at hz1
  exact ⟨hz, estimate_basis_preserves_forward ⟨0, 0, 0⟩ ⟨1, 0, 0⟩ ⟨0, 1, 0⟩ ⟨0, 0, 1⟩ hz⟩

/-- C10 (implicit): estimate_orthonormal_basis raises ValueError exactly when
one of its four reference points does not have shape (3,), and then never
returns a basis. -/
theorem estimate_basis_shape_guard (c f l u : NDArr) :
    (estimateOrthonormalBasisChecked c f l u =
        Except.error "All reference points must be 3D vectors." ↔
      (c.shape ≠ [3] ∨ f.shape ≠ [3] ∨ l.shape ≠ [3] ∨ u.shape ≠ [3])) ∧
    ((c.shape ≠ [3] ∨ f.shape ≠ [3] ∨ l.shape ≠ [3] ∨ u.shape ≠ [3]) →
      ∀ b, estimateOrthonormalBasisChecked c f l u ≠ Except.ok b) := by
  unfold estimateOrthonormalBasisChecked
  split_ifs with hcond
  · exact ⟨⟨fun _ => hcond, fun _ => rfl⟩, fun _ b hEq => by simp at hEq⟩
  · refine ⟨⟨fun hEq => by simp at hEq, fun hc => absurd hc hcond⟩,
      fun hc => absurd hc hcond⟩

/-- C7: constructing a simple rigid body from two Keypoint values errors
exactly when parent equals child (keypoint equality is by name), and
succeeds exactly when they differ. -/
theorem simple_rigid_body_parent_ne_child (p c : Keypoint) :
    (simpleRigidBodyPostInit p c =
        Except.error "Parent and child keypoints must be different" ↔ p = c) ∧
    (simpleRigidBodyPostInit p c = Except.ok () ↔ p ≠ c) := by
  unfold simpleRigidBodyPostInit
  split_ifs with h <;> simp [h]

theorem kpMember_true_iff (children : List Keypoint) (k : Keypoint) :
    kpMember children k = true ↔ k ∈ children := by
  simp [kpMember, List.any_eq_true, beq_iff_eq]

theorem kpMember_false_iff (children : List Keypoint) (k : Keypoint) :
    kpMember children k = false ↔ k ∉ children := by
  rw [← Bool.not_eq_true, kpMember_true_iff]

theorem optOutside_true_iff (children : List Keypoint) (o : Option Keypoint) :
    optOutside children o = true ↔ ∃ k, o = some k ∧ k ∉ children := by
  cases o with
  | none => simp [optOutside]
  | some k => simp [optOutside, kpMember_false_iff]

theorem optOutside_false_iff (children : List Keypoint) (o : Option Keypoint) :
    optOutside children o = false ↔ ∀ k, o = some k → k ∈ children := by
  cases o with
  | none => simp [optOutside]
  | some k => simp [optOutside, kpMember_true_iff]

/-- C6: compound rigid body construction succeeds exactly when the shared
keypoint and the positive-x keypoint are members of the children list, at
least one approximate y-direction is provided and each provided one is a
member of the children list; every violation errors at construction. -/
theorem compound_rigid_body_valid_iff (children : List Keypoint)
    (shared posX : Keypoint) (posY negY : Option Keypoint) :
    (compoundRigidBodyPostInit children shared posX posY negY = Except.ok () ↔
      (shared ∈ children ∧ posX ∈ children ∧ (posY.isSome ∨ negY.isSome) ∧
       (∀ k, posY = some k → k ∈ children) ∧
       (∀ k, negY = some k → k ∈ children))) ∧
    (¬ (shared ∈ children ∧ posX ∈ children ∧ (posY.isSome ∨ negY.isSome) ∧
        (∀ k, posY = some k → k ∈ children) ∧
        (∀ k, negY = some k → k ∈ children)) →
      ∃ e, compoundRigidBodyPostInit children shared posX posY negY =
        Except.error e) := by
  have hmain : compoundRigidBodyPostInit children shared posX posY negY =
      Except.ok () ↔
      (shared ∈ children ∧ posX ∈ children ∧ (posY.isSome ∨ negY.isSome) ∧
       (∀ k, posY = some k → k ∈ children) ∧
       (∀ k, negY = some k → k ∈ children)) := by
    unfold compoundRigidBodyPostInit
    split_ifs with h1 h2 h3 h4 h5
    · rw [Bool.not_eq_true'] at h1
      rw [kpMember_false_iff] at h1
      simp [h1]
    · rw [Bool.not_eq_true'] at h2
      rw [kpMember_false_iff] at h2
      simp [h2]
    · rw [optOutside_true_iff] at h3
      obtain ⟨k, hk, hknot⟩ := h3
      constructor
      · intro hEq
        simp at hEq
      · rintro ⟨-, -, -, hall, -⟩
        exact absurd (hall k hk) hknot
    · rw [optOutside_true_iff] at h4
      obtain ⟨k, hk, hknot⟩ := h4
      constructor
      · intro hEq
        simp at hEq
      · rintro ⟨-, -, -, -, hall⟩
        exact absurd (hall k hk) hknot
    · rw [Bool.and_eq_true] at h5
      obtain ⟨hp, hn⟩ := h5
      rw [Option.isNone_iff_eq_none] at hp hn
      simp [hp, hn]
    · have m1 : shared ∈ children := by
        cases hb : kpMember children shared with
        | false => exact absurd (by rw [hb]; rfl) h1
        | true => exact (kpMember_true_iff children shared).mp hb
      have m2 : posX ∈ children := by
        cases hb : kpMember children posX with
        | false => exact absurd (by rw [hb]; rfl) h2
        | true => exact (kpMember_true_iff children posX).mp hb
      have m3 : ∀ k, posY = some k → k ∈ children := by
        refine (optOutside_false_iff children posY).mp ?_
        cases hb : optOutside children posY with
        | false => rfl
        | true => exact absurd hb h3
      have m4 : ∀ k, negY = some k → k ∈ children := by
        refine (optOutside_false_iff children negY).mp ?_
        cases hb : optOutside children negY with
        | false => rfl
        | true => exact absurd hb h4
      have m5 : posY.isSome ∨ negY.isSome := by
        by_contra hno
        push_neg at hno
        obtain ⟨hp, hn⟩ := hno
        apply h5
        have hpn : posY = none := Option.not_isSome_iff_eq_none.mp hp
        have hnn : negY = none := Option.not_isSome_iff_eq_none.mp hn
        rw [hpn, hnn]
        rfl
      exact ⟨fun _ => ⟨m1, m2, m5, m3, m4⟩, fun _ => rfl⟩
  refine ⟨hmain, fun hviol => ?_⟩
  cases hres : compoundRigidBodyPostInit children shared posX posY negY with
  | error e => exact ⟨e, rfl⟩
  | ok v =>
    cases v
    exact absurd (hmain.mp hres) hviol

/-- C5 (code bug): every KeypointMapping construction fails with an
AttributeError, whatever the mapping and weights are, because __post_init__
reads self.source_keypoints and the dataclass declares only the fields
mapping and weights; the weight defaulting and validation never run. -/
theorem keypoint_mapping_always_attribute_error (mapping : List String)
    (weights : Option (List ℚ)) :
    keypointMappingPostInit mapping weights =
      Except.error
        "AttributeError: KeypointMapping object has no attribute source_keypoints" := by
  have h : "source_keypoints" ∉ keypointMappingFields := by decide
  unfold keypointMappingPostInit
  rw [if_neg h]

/-- C4 (code bug): a Linkage construction with a non-empty linked_keypoints
list always raises, whatever the parent and children bodies are: the loop
`for body in [self.parent, self.children]` passes the children list itself
as a body, which matches no isinstance branch. -/
theorem linkage_nonempty_always_fails (p : RigidBody) (ch : List RigidBody)
    (k : Keypoint) (rest : List Keypoint) :
    ∃ e, linkagePostInit p ch (k :: rest) = Except.error e := by
  unfold linkagePostInit
  cases hres : linkageBodyLoop (Sum.inl p) (k :: rest) with
  | error e => exact ⟨e, rfl⟩
  | ok v => exact ⟨"Body is not a valid rigid body type", rfl⟩

/-- C8 (code bug): constructing a chain record performs no validation at all
(ChainABC is not a dataclass, so its __post_init__ is never invoked): the
fields are stored as given, even for a declared shared body that the written
check (dead code) would reject. -/
theorem chain_validation_dead_code (p : Linkage) (cs : List Linkage)
    (sb : List RigidBody) :
    (chainConstruct p cs sb).parent = p ∧
    (chainConstruct p cs sb).children = cs ∧
    (chainConstruct p cs sb).sharedBodies = sb ∧
    chainSharedLoop [] [RigidBody.simple ⟨"a"⟩ ⟨"b"⟩] =
      Except.error "Shared body not found in children" :=
  ⟨rfl, rfl, rfl, rfl⟩

theorem deepcopy_preserves_low (m : List (String × Nat)) :
    ∀ (h : Heap) (n j : Nat), j < n → (deepcopyTrajs m h n).2.1 j = h j := by
  induction m with
  | nil => intro h n j _; rfl
  | cons kv rest ih =>
    intro h n j hj
    rcases kv with ⟨k, i⟩
    show (deepcopyTrajs rest (setCell h n ((h i).getD [])) (n + 1)).2.1 j = h j
    rw [ih (setCell h n ((h i).getD [])) (n + 1) j (Nat.lt_succ_of_lt hj)]
    simp only [setCell]
    rw [if_neg (Nat.ne_of_lt hj)]

theorem deepcopy_ids_ge (m : List (String × Nat)) :
    ∀ (h : Heap) (n : Nat), ∀ p ∈ (deepcopyTrajs m h n).1, n ≤ p.2 := by
  induction m with
  | nil =>
    intro h n p hp
    simp [deepcopyTrajs] at hp
  | cons kv rest ih =>
    intro h n p hp
    rcases kv with ⟨k, i⟩
    have hp2 : p = (k, n) ∨
        p ∈ (deepcopyTrajs rest (setCell h n ((h i).getD [])) (n + 1)).1 := by
      simpa [deepcopyTrajs] using hp
    rcases hp2 with h1 | h2
    · rw [h1]
    · exact Nat.le_of_succ_le (ih _ _ p h2)

theorem transformLoop_preserves_low (c : Vec3) (R : Mat3)
    (orig : List (String × Nat)) (cm : List (String × Nat)) :
    ∀ (h : Heap) (n j : Nat), (∀ p ∈ cm, n ≤ p.2) → j < n →
      transformLoop c R orig cm h j = h j := by
  induction cm with
  | nil => intro h n j _ _; rfl
  | cons kv rest ih =>
    intro h n j hcm hj
    rcases kv with ⟨k, i⟩
    have hin : n ≤ i := hcm (k, i) (List.mem_cons_self _ _)
    simp only [transformLoop]
    rw [ih _ n j (fun p hp => hcm p (List.mem_cons_of_mem _ hp)) hj]
    simp only [setCell]
    rw [if_neg (Nat.ne_of_lt (lt_of_lt_of_le hj hin))]

/-- C9: put_skeleton_on_ground never mutates its input: for every trajectory
object the input mapping references, the heap cell it occupies is unchanged
after the deep copy and the transform loop (all writes go to the freshly
allocated copies). -/
theorem put_skeleton_store_no_mutation (m : List (String × Nat)) (h : Heap)
    (n : Nat) (c : Vec3) (R : Mat3) (hwf : ∀ p ∈ m, p.2 < n) :
    ∀ p ∈ m, (putSkeletonOnGroundStore m h n c R).2 p.2 = h p.2 := by
  intro p hp
  show transformLoop c R m (deepcopyTrajs m h n).1 (deepcopyTrajs m h n).2.1 p.2 =
    h p.2
  rw [transformLoop_preserves_low c R m (deepcopyTrajs m h n).1
    (deepcopyTrajs m h n).2.1 n p.2 (deepcopy_ids_ge m h n) (hwf p hp)]
  exact deepcopy_preserves_low m h n p.2 (hwf p hp)

/-- Witness for C9: a one-entry store ("a" at cell 0, allocation counter 1)
satisfies the well-formedness bound, and the input cell is untouched. -/
theorem put_skeleton_store_no_mutation_witness :
    (∀ p ∈ [(("a" : String), 0)], p.2 < 1) ∧
    (∀ p ∈ [(("a" : String), 0)],
      (putSkeletonOnGroundStore [(("a" : String), 0)]
        (fun j => if j = 0 then some [] else none) 1 ⟨0, 0, 0⟩ matC).2 p.2 =
      (fun j : Nat => if j = 0 then some ([] : List OPt) else none) p.2) :=
  ⟨by simp,
   put_skeleton_store_no_mutation [(("a" : String), 0)]
     (fun j => if j = 0 then some [] else none) 1 ⟨0, 0, 0⟩ matC (by simp)⟩

theorem transformStage_keys (c : Vec3) (R : Mat3) (trajs : TrajMap) :
    (transformStage c R trajs).map Prod.fst = trajs.map Prod.fst := by
  induction trajs with
  | nil => rfl
  | cons kv rest ih =>
    simp only [transformStage, List.map_cons] at ih ⊢
    rw [ih]

theorem transformStage_lookup (c : Vec3) (R : Mat3) (trajs : TrajMap) (k : String) :
    (transformStage c R trajs).lookup k =
      (trajs.lookup k).map (List.map (transformPointO c R)) := by
  induction trajs with
  | nil => rfl
  | cons kv rest ih =>
    rcases kv with ⟨k', tr⟩
    simp only [transformStage, List.map_cons] at ih ⊢
    cases hbeq : (k == k') with
    | true => simp [List.lookup, hbeq]
    | false => simp [List.lookup, hbeq, ih]

theorem hasNaN_transformPointO (c : Vec3) (R : Mat3) (p : OPt) :
    OPt.hasNaN (transformPointO c R p) = OPt.hasNaN p := by
  rcases p with ⟨px, py, pz⟩
  rcases px with _ | a <;> rcases py with _ | b <;> rcases pz with _ | d <;>
    simp [transformPointO, odot, oadd, omulR, osubR, OPt.hasNaN]

theorem hasNaN_map_get (c : Vec3) (R : Mat3) (tr : List OPt) (i : Nat) :
    ((tr.map (transformPointO c R)).get? i).map OPt.hasNaN =
      (tr.get? i).map OPt.hasNaN := by
  rw [List.get?_map, Option.map_map]
  have : OPt.hasNaN ∘ transformPointO c R = OPt.hasNaN := by
    funext p
    exact hasNaN_transformPointO c R p

  rw [this]

theorem toVec3_some_shape (p : OPt) (v : Vec3) (h : p.toVec3 = some v) :
    p = ⟨some v.x, some v.y, some v.z⟩ := by
  rcases p with ⟨_ | a, _ | b, _ | d⟩ <;> simp [OPt.toVec3] at h
  rw [← h]

theorem nanmean4 (a b c d : ℝ) :
    nanmean [some a, some b, some c, some d] = some ((a + b + c + d) / 4) := by
  simp only [nanmean, List.filterMap, Option.map_some]
  norm_num
  try ring

theorem nanmean2 (a b : ℝ) :
    nanmean [some a, some b] = some ((a + b) / 2) := by
  simp only [nanmean, List.filterMap, Option.map_some]
  norm_num
  try ring

theorem opt_bind_peel {α β : Type} {x : Option α} {f : α → Option β} {b : β}
    (h : (x >>= f) = some b) : ∃ a, x = some a ∧ f a = some b := by
  rw [Option.bind_eq_bind'] at h
  exact Option.bind_eq_some'.mp h

/-- C3: whenever put_skeleton_on_ground returns, its output is every input
trajectory mapped frame by frame through the same rigid map
point' = (point - center) . R^T, where center is the mean of the four
ground-contact reference rows at the good frame and R stacks the estimated
basis vectors as rows; every keypoint (not only the reference set) is
transformed uniformly, keys and per-trajectory lengths are preserved, and a
frame of any trajectory carries a NaN in the output exactly when it does in
the input. -/
theorem put_skeleton_on_ground_uniform_transform (gf : Nat)
    (trajs out : TrajMap) (v1 v2 v3 v4 : Vec3)
    (hrun : putSkeletonOnGroundPipeline gf trajs = some out)
    (h1 : refRow trajs rightHeelKey gf = some v1)
    (h2 : refRow trajs leftHeelKey gf = some v2)
    (h3 : refRow trajs rightHalluxKey gf = some v3)
    (h4 : refRow trajs leftHalluxKey gf = some v4) :
    ∃ (u : Vec3) (R : Mat3),
      R = ⟨(estimateOrthonormalBasis ((1 / 4 : ℝ) • (v1 + v2 + v3 + v4))
              ((1 / 2 : ℝ) • (v3 + v4)) ((1 / 2 : ℝ) • (v4 + v2)) u).1,
           (estimateOrthonormalBasis ((1 / 4 : ℝ) • (v1 + v2 + v3 + v4))
              ((1 / 2 : ℝ) • (v3 + v4)) ((1 / 2 : ℝ) • (v4 + v2)) u).2.1,
           (estimateOrthonormalBasis ((1 / 4 : ℝ) • (v1 + v2 + v3 + v4))
              ((1 / 2 : ℝ) • (v3 + v4)) ((1 / 2 : ℝ) • (v4 + v2)) u).2.2⟩ ∧
      out = transformStage ((1 / 4 : ℝ) • (v1 + v2 + v3 + v4)) R trajs ∧
      out.map Prod.fst = trajs.map Prod.fst ∧
      (∀ k tr, trajs.lookup k = some tr →
        out.lookup k =
          some (tr.map (transformPointO ((1 / 4 : ℝ) • (v1 + v2 + v3 + v4)) R)) ∧
        (tr.map (transformPointO ((1 / 4 : ℝ) • (v1 + v2 + v3 + v4)) R)).length =
          tr.length ∧
        (∀ i : Nat,
          ((tr.map
            (transformPointO ((1 / 4 : ℝ) • (v1 + v2 + v3 + v4)) R)).get? i).map
              OPt.hasNaN = (tr.get? i).map OPt.hasNaN)) := by
  unfold putSkeletonOnGroundPipeline at hrun
  obtain ⟨t1, hl1, hrun⟩ := opt_bind_peel hrun
  obtain ⟨t2, hl2, hrun⟩ := opt_bind_peel hrun
  obtain ⟨t3, hl3, hrun⟩ := opt_bind_peel hrun
  obtain ⟨t4, hl4, hrun⟩ := opt_bind_peel hrun
  obtain ⟨t5, hl5, hrun⟩ := opt_bind_peel hrun
  obtain ⟨r1, hr1, hrun⟩ := opt_bind_peel hrun
  obtain ⟨r2, hr2, hrun⟩ := opt_bind_peel hrun
  obtain ⟨r3, hr3, hrun⟩ := opt_bind_peel hrun
  obtain ⟨r4, hr4, hrun⟩ := opt_bind_peel hrun
  obtain ⟨r5, hr5, hrun⟩ := opt_bind_peel hrun
  obtain ⟨cV, hcV, hrun⟩ := opt_bind_peel hrun
  obtain ⟨fV, hfV, hrun⟩ := opt_bind_peel hrun
  obtain ⟨lV, hlV, hif⟩ := opt_bind_peel hrun
  simp only [] at hif
  have hv1 : r1.toVec3 = some v1 := by
    simp only [refRow, hl1, Option.some_bind, hr1] at h1
    exact h1
  have hv2 : r2.toVec3 = some v2 := by
    simp only [refRow, hl2, Option.some_bind, hr2] at h2
    exact h2
  have hv3 : r3.toVec3 = some v3 := by
    simp only [refRow, hl3, Option.some_bind, hr3] at h3
    exact h3
  have hv4 : r4.toVec3 = some v4 := by
    simp only [refRow, hl4, Option.some_bind, hr4] at h4
    exact h4
  have hp1 := toVec3_some_shape r1 v1 hv1
  have hp2 := toVec3_some_shape r2 v2 hv2
  have hp3 := toVec3_some_shape r3 v3 hv3
  have hp4 := toVec3_some_shape r4 v4 hv4
  have hcenter : cV = (1 / 4 : ℝ) • (v1 + v2 + v3 + v4) := by
    rw [hp1, hp2, hp3, hp4] at hcV
    simp only [nanmeanPts, List.map_cons, List.map_nil] at hcV
    rw [nanmean4, nanmean4, nanmean4] at hcV
    simp only [OPt.toVec3, Option.some.injEq] at hcV
    rw [← hcV]
    ext <;> simp <;> ring
  have hforward : fV = (1 / 2 : ℝ) • (v3 + v4) := by
    rw [hp3, hp4] at hfV
    simp only [nanmeanPts, List.map_cons, List.map_nil] at hfV
    rw [nanmean2, nanmean2, nanmean2] at hfV
    simp only [OPt.toVec3, Option.some.injEq] at hfV
    rw [← hfV]
    ext <;> simp <;> ring
  have hleftward : lV = (1 / 2 : ℝ) • (v4 + v2) := by
    rw [hp4, hp2] at hlV
    simp only [nanmeanPts, List.map_cons, List.map_nil] at hlV
    rw [nanmean2, nanmean2, nanmean2] at hlV
    simp only [OPt.toVec3, Option.some.injEq] at hlV
    rw [← hlV]
    ext <;> simp <;> ring
  rw [hcenter, hforward, hleftward] at hif
  split at hif
  · have hout := (Option.some.inj hif).symm
    refine ⟨OPt.repVec3 r5, _, rfl, hout, ?_, ?_⟩
    · rw [hout]
      exact transformStage_keys _ _ trajs
    · intro k tr hlk
      refine ⟨?_, List.length_map _ _, fun i => hasNaN_map_get _ _ tr i⟩
      rw [hout, transformStage_lookup, hlk]
      rfl
  · exact absurd hif (by simp)

theorem opt_bind_step {α β : Type} {x : Option α} {f : α → Option β} {a : α}
    (h : x = some a) : (x >>= f) = f a := by
  rw [h]
  rfl

theorem estimate_basis_concrete :
    estimateOrthonormalBasis ⟨0, 0, 0⟩ ⟨1, 0, 0⟩ ⟨0, 1, 0⟩ ⟨0, 0, 1⟩ =
      (⟨1, 0, 0⟩, ⟨0, 1, 0⟩, ⟨0, 0, 1⟩) := by
  unfold estimateOrthonormalBasis
  norm_num [Vec3.cross, Vec3.dot, Vec3.normSq, Vec3.norm, Vec3.vdiv,
    Prod.ext_iff, Vec3.mk.injEq, Real.sqrt_one]

theorem ground_asserts_concrete :
    groundAssertsPass ⟨0, 0, 0⟩ ⟨1, 0, 0⟩ ⟨0, 1, 0⟩ ⟨0, 0, 1⟩ := by
  have hn1 : Vec3.norm ⟨1, 0, 0⟩ = 1 := by
    norm_num [Vec3.norm, Vec3.normSq, Vec3.dot, Real.sqrt_one]
  have hn2 : Vec3.norm ⟨0, 1, 0⟩ = 1 := by
    norm_num [Vec3.norm, Vec3.normSq, Vec3.dot, Real.sqrt_one]
  have hn3 : Vec3.norm ⟨0, 0, 1⟩ = 1 := by
    norm_num [Vec3.norm, Vec3.normSq, Vec3.dot, Real.sqrt_one]
  simp only [groundAssertsPass, estimate_basis_concrete]
  refine ⟨npAllclose_of_eq hn1, npAllclose_of_eq hn2, npAllclose_of_eq hn3,
    npAllclose_of_eq (by norm_num [Vec3.dot]),
    npAllclose_of_eq (by norm_num [Vec3.dot]),
    npAllclose_of_eq (by norm_num [Vec3.dot]),
    npVAllclose_of_eq (by ext <;> norm_num [Vec3.cross]),
    npVAllclose_of_eq (by ext <;> norm_num [Vec3.cross]),
    npVAllclose_of_eq (by ext <;> norm_num [Vec3.cross]),
    npVAllclose_of_eq (by ext <;> norm_num [Mat3.mulVec, Vec3.dot]),
    npVAllclose_of_eq (by ext <;> norm_num [Mat3.mulVec, Vec3.dot]),
    npVAllclose_of_eq (by ext <;> norm_num [Mat3.mulVec, Vec3.dot]),
    npAllclose_of_eq (by norm_num [Mat3.det3])⟩

theorem pipeline_eval_concrete :
    putSkeletonOnGroundPipeline 0 trajsC = some outC := by
  have hL1 : trajsC.lookup rightHeelKey = some [pt (-1) (-1) 0] := rfl
  have hL2 : trajsC.lookup leftHeelKey = some [pt (-1) 1 0] := rfl
  have hL3 : trajsC.lookup rightHalluxKey = some [pt 1 (-1) 0] := rfl
  have hL4 : trajsC.lookup leftHalluxKey = some [pt 1 1 0] := rfl
  have hL5 : trajsC.lookup skullKey = some [pt 0 0 1] := rfl
  have hG1 : [pt (-1) (-1) 0].get? 0 = some (pt (-1) (-1) 0) := rfl
  have hG2 : [pt (-1) 1 0].get? 0 = some (pt (-1) 1 0) := rfl
  have hG3 : [pt 1 (-1) 0].get? 0 = some (pt 1 (-1) 0) := rfl
  have hG4 : [pt 1 1 0].get? 0 = some (pt 1 1 0) := rfl
  have hG5 : [pt 0 0 1].get? 0 = some (pt 0 0 1) := rfl
  have hcv : (nanmeanPts [pt (-1) (-1) 0, pt (-1) 1 0, pt 1 (-1) 0,
      pt 1 1 0]).toVec3 = some ⟨0, 0, 0⟩ := by
    simp only [nanmeanPts, pt, List.map_cons, List.map_nil]
    rw [nanmean4, nanmean4, nanmean4]
    simp only [OPt.toVec3, Option.some.injEq, Vec3.mk.injEq]
    norm_num
  have hfv : (nanmeanPts [pt 1 (-1) 0, pt 1 1 0]).toVec3 = some ⟨1, 0, 0⟩ := by
    simp only [nanmeanPts, pt, List.map_cons, List.map_nil]
    rw [nanmean2, nanmean2, nanmean2]
    simp only [OPt.toVec3, Option.some.injEq, Vec3.mk.injEq]
    norm_num
  have hlv : (nanmeanPts [pt 1 1 0, pt (-1) 1 0]).toVec3 = some ⟨0, 1, 0⟩ := by
    simp only [nanmeanPts, pt, List.map_cons, List.map_nil]
    rw [nanmean2, nanmean2, nanmean2]
    simp only [OPt.toVec3, Option.some.injEq, Vec3.mk.injEq]
    norm_num
  have hrep : OPt.repVec3 (pt 0 0 1) = (⟨0, 0, 1⟩ : Vec3) := rfl
  unfold putSkeletonOnGroundPipeline
  simp only [opt_bind_step hL1, opt_bind_step hL2, opt_bind_step hL3,
    opt_bind_step hL4, opt_bind_step hL5, opt_bind_step hG1, opt_bind_step hG2,
    opt_bind_step hG3, opt_bind_step hG4, opt_bind_step hG5, opt_bind_step hcv,
    opt_bind_step hfv, opt_bind_step hlv]
  rw [hrep, if_pos ground_asserts_concrete, estimate_basis_concrete]
  rfl

/-- Witness for C3: at a concrete five-key one-frame mapping with good frame
0, the pipeline returns, the four reference rows are NaN-free, and the
conclusion holds of them. -/
theorem put_skeleton_on_ground_uniform_transform_witness :
    putSkeletonOnGroundPipeline 0 trajsC = some outC ∧
    refRow trajsC rightHeelKey 0 = some ⟨-1, -1, 0⟩ ∧
    refRow trajsC leftHeelKey 0 = some ⟨-1, 1, 0⟩ ∧
    refRow trajsC rightHalluxKey 0 = some ⟨1, -1, 0⟩ ∧
    refRow trajsC leftHalluxKey 0 = some ⟨1, 1, 0⟩ ∧
    (∃ (u : Vec3) (R : Mat3),
      R = ⟨(estimateOrthonormalBasis
              ((1 / 4 : ℝ) • ((⟨-1, -1, 0⟩ : Vec3) + ⟨-1, 1, 0⟩ + ⟨1, -1, 0⟩ + ⟨1, 1, 0⟩))
              ((1 / 2 : ℝ) • ((⟨1, -1, 0⟩ : Vec3) + ⟨1, 1, 0⟩))
              ((1 / 2 : ℝ) • ((⟨1, 1, 0⟩ : Vec3) + ⟨-1, 1, 0⟩)) u).1,
           (estimateOrthonormalBasis
              ((1 / 4 : ℝ) • ((⟨-1, -1, 0⟩ : Vec3) + ⟨-1, 1, 0⟩ + ⟨1, -1, 0⟩ + ⟨1, 1, 0⟩))
              ((1 / 2 : ℝ) • ((⟨1, -1, 0⟩ : Vec3) + ⟨1, 1, 0⟩))
              ((1 / 2 : ℝ) • ((⟨1, 1, 0⟩ : Vec3) + ⟨-1, 1, 0⟩)) u).2.1,
           (estimateOrthonormalBasis
              ((1 / 4 : ℝ) • ((⟨-1, -1, 0⟩ : Vec3) + ⟨-1, 1, 0⟩ + ⟨1, -1, 0⟩ + ⟨1, 1, 0⟩))
              ((1 / 2 : ℝ) • ((⟨1, -1, 0⟩ : Vec3) + ⟨1, 1, 0⟩))
              ((1 / 2 : ℝ) • ((⟨1, 1, 0⟩ : Vec3) + ⟨-1, 1, 0⟩)) u).2.2⟩ ∧
      outC = transformStage
        ((1 / 4 : ℝ) • ((⟨-1, -1, 0⟩ : Vec3) + ⟨-1, 1, 0⟩ + ⟨1, -1, 0⟩ + ⟨1, 1, 0⟩))
        R trajsC ∧
      outC.map Prod.fst = trajsC.map Prod.fst ∧
      (∀ k tr, trajsC.lookup k = some tr →
        outC.lookup k =
          some (tr.map (transformPointO
            ((1 / 4 : ℝ) • ((⟨-1, -1, 0⟩ : Vec3) + ⟨-1, 1, 0⟩ + ⟨1, -1, 0⟩ + ⟨1, 1, 0⟩))
            R)) ∧
        (tr.map (transformPointO
            ((1 / 4 : ℝ) • ((⟨-1, -1, 0⟩ : Vec3) + ⟨-1, 1, 0⟩ + ⟨1, -1, 0⟩ + ⟨1, 1, 0⟩))
            R)).length = tr.length ∧
        (∀ i : Nat,
          ((tr.map (transformPointO
            ((1 / 4 : ℝ) • ((⟨-1, -1, 0⟩ : Vec3) + ⟨-1, 1, 0⟩ + ⟨1, -1, 0⟩ + ⟨1, 1, 0⟩))
            R)).get? i).map OPt.hasNaN = (tr.get? i).map OPt.hasNaN))) :=
  ⟨pipeline_eval_concrete, rfl, rfl, rfl, rfl,
   put_skeleton_on_ground_uniform_transform 0 trajsC outC
     ⟨-1, -1, 0⟩ ⟨-1, 1, 0⟩ ⟨1, -1, 0⟩ ⟨1, 1, 0⟩
     pipeline_eval_concrete rfl rfl rfl rfl⟩
